import Mathlib

/-!
Shallow embedding of the bookmarks tRPC router of hoarder-app
(`packages/trpc/routers/bookmarks.ts`, given as `src/unnamed/part_000`).

Tables of the relational store are lists of rows; ids, user ids, asset ids
and timestamps are `Nat` (the source uses opaque string cuids and `Date`s,
only compared for equality / order); the job queue is a list of typed jobs;
`deleteAsset` calls are recorded in a `released` list.  Mutations are
functions `St → St × Except TRPCError α`: an error outcome returns the
state unchanged exactly where the source rolls back or throws before
writing.  Drizzle's `db.transaction` is embedded as `runTransaction`,
which discards the inner state on error (rollback).
-/

namespace Hoarder

/-- Error codes of `TRPCError` as used in the router. -/
inductive TRPCErrorCode where
  | UNAUTHORIZED
  | NOT_FOUND
  | FORBIDDEN
  | BAD_REQUEST
  | INTERNAL_SERVER_ERROR
  deriving DecidableEq, Repr

/-- The error type thrown by the router (`new TRPCError({code, message?})`). -/
structure TRPCError where
  code : TRPCErrorCode
  message : Option String
  deriving DecidableEq, Repr

def notFoundMsg : String := "Bookmark not found"
def forbiddenMsg : String := "User is not allowed to access resource"
def unauthorizedMsg : String := "User is not authorized"
def searchNotConfiguredMsg : String := "Search functionality is not configured"

def notFoundErr : TRPCError := ⟨.NOT_FOUND, some notFoundMsg⟩
def forbiddenErr : TRPCError := ⟨.FORBIDDEN, some forbiddenMsg⟩
def unauthorizedErr : TRPCError := ⟨.UNAUTHORIZED, some unauthorizedMsg⟩
def badRequestErr : TRPCError := ⟨.BAD_REQUEST, none⟩
def searchNotConfiguredErr : TRPCError := ⟨.INTERNAL_SERVER_ERROR, some searchNotConfiguredMsg⟩

/-- Provenance of a tag attachment (`attachedBy` ∈ {human, ai}). -/
inductive AttachedBy where
  | human
  | ai
  deriving DecidableEq, Repr

/-- Row of the `bookmarks` table. -/
structure BookmarkRow where
  id : Nat
  userId : Nat
  archived : Bool
  favourited : Bool
  note : Option String
  createdAt : Nat
  deriving DecidableEq, Repr

/-- Row of the `bookmarkLinks` table. -/
structure LinkRow where
  id : Nat
  url : String
  title : Option String
  description : Option String
  imageUrl : Option String
  crawledAt : Option Nat
  deriving DecidableEq, Repr

/-- Row of the `bookmarkTexts` table (the `text` column is nullable). -/
structure TextRow where
  id : Nat
  text : Option String
  deriving DecidableEq, Repr

/-- Asset kinds (`assetType` ∈ {image, pdf}). -/
inductive AssetType where
  | image
  | pdf
  deriving DecidableEq, Repr

/-- Row of the `bookmarkAssets` table. -/
structure AssetRow where
  id : Nat
  assetType : AssetType
  assetId : Nat
  content : Option String
  info : Option String
  metadata : Option String
  deriving DecidableEq, Repr

/-- Row of the `bookmarkTags` table. -/
structure TagRow where
  id : Nat
  name : String
  userId : Nat
  deriving DecidableEq, Repr

/-- Row of the `tagsOnBookmarks` many-to-many table. -/
structure TagOnBookmarkRow where
  tagId : Nat
  bookmarkId : Nat
  attachedBy : AttachedBy
  userId : Nat
  deriving DecidableEq, Repr

/-- Row of the `bookmarksInLists` table. -/
structure BookmarkInListRow where
  bookmarkId : Nat
  listId : Nat
  deriving DecidableEq, Repr

/-- The relational database state visible to this router. -/
structure Db where
  bookmarks : List BookmarkRow
  bookmarkLinks : List LinkRow
  bookmarkTexts : List TextRow
  bookmarkAssets : List AssetRow
  bookmarkTags : List TagRow
  tagsOnBookmarks : List TagOnBookmarkRow
  bookmarksInLists : List BookmarkInListRow
  deriving DecidableEq, Repr

/-- The operation kind carried by a search-indexing job. -/
inductive JobKind where
  | index
  | delete
  deriving DecidableEq, Repr

/-- A job on one of the queue topics used by this router: `LinkCrawlerQueue`
(`crawl`), `OpenAIQueue` (`openai`) and `SearchIndexingQueue`
(`search_indexing`). -/
inductive Job where
  | crawl (bookmarkId : Nat)
  | openai (bookmarkId : Nat)
  | searchIndexing (bookmarkId : Nat) (kind : JobKind)
  deriving DecidableEq, Repr

/-- Full state acted on by the router: database, queue contents, the record
of `deleteAsset` calls (pairs `(userId, assetId)`), a fresh-id supply and
the current time used for `createdAt` defaults. -/
structure St where
  db : Db
  queue : List Job
  released : List (Nat × Nat)
  nextId : Nat
  now : Nat
  deriving DecidableEq, Repr

/-- Public content variant of a bookmark (`ZBookmarkContent`). -/
inductive ZBookmarkContent where
  | link (l : LinkRow)
  | text (text : String)
  | asset (assetType : AssetType) (assetId : Nat)
  | unknown
  deriving DecidableEq, Repr

/-- Public tag shape (`ZBookmarkTags`): the tag row spread together with the
attachment's `attachedBy`. -/
structure ZTag where
  id : Nat
  name : String
  userId : Nat
  attachedBy : AttachedBy
  deriving DecidableEq, Repr

/-- Public bookmark shape (`ZBookmark`): the bookmark row spread together
with its tags and content variant. -/
structure ZBookmark where
  id : Nat
  userId : Nat
  archived : Bool
  favourited : Bool
  note : Option String
  createdAt : Nat
  tags : List ZTag
  content : ZBookmarkContent
  deriving DecidableEq, Repr

/-- Embeds `ctx.db.transaction(async (tx) => ...)`: the body reads and
returns a database; if it throws, the transaction rolls back and the
original database is kept.  The body has no access to the job queue, so a
queue write can only ever happen outside the transaction. -/
def runTransaction (db : Db) (body : Db → Except TRPCError (Db × α)) :
    Db × Except TRPCError α :=
  match body db with
  | .ok (db2, a) => (db2, .ok a)
  | .error e => (db, .error e)

/-- Request body of `createBookmark` (`zNewBookmarkRequestSchema`), a
discriminated union on `type`. -/
inductive NewBookmarkInput where
  | link (url : String)
  | text (text : String)
  | asset (assetType : AssetType) (assetId : Nat)
  | unknown
  deriving DecidableEq, Repr

/-- The transaction body of `createBookmark` (part_000 lines 126-199):
insert the bookmark row, then the single content-variant row selected by
`input.type`; the `unknown` case throws `BAD_REQUEST` (after the bookmark
insert, which the rollback undoes). -/
def createBookmarkTx (u : Nat) (input : NewBookmarkInput) (nextId now : Nat)
    (db : Db) : Except TRPCError (Db × ZBookmark) :=
  let bookmark : BookmarkRow :=
    { id := nextId, userId := u, archived := false, favourited := false,
      note := none, createdAt := now }
  let db1 : Db := { db with bookmarks := db.bookmarks ++ [bookmark] }
  match input with
  | .link url =>
    let link : LinkRow :=
      { id := bookmark.id, url := url.trim, title := none,
        description := none, imageUrl := none, crawledAt := none }
    let db2 : Db := { db1 with bookmarkLinks := db1.bookmarkLinks ++ [link] }
    .ok (db2,
      { id := bookmark.id, userId := bookmark.userId,
        archived := bookmark.archived, favourited := bookmark.favourited,
        note := bookmark.note, createdAt := bookmark.createdAt,
        tags := [], content := .link link })
  | .text t =>
    let row : TextRow := { id := bookmark.id, text := some t }
    let db2 : Db := { db1 with bookmarkTexts := db1.bookmarkTexts ++ [row] }
    .ok (db2,
      { id := bookmark.id, userId := bookmark.userId,
        archived := bookmark.archived, favourited := bookmark.favourited,
        note := bookmark.note, createdAt := bookmark.createdAt,
        tags := [], content := .text (row.text.getD ("")) })
  | .asset ty aid =>
    let row : AssetRow :=
      { id := bookmark.id, assetType := ty, assetId := aid,
        content := none, info := none, metadata := none }
    let db2 : Db := { db1 with bookmarkAssets := db1.bookmarkAssets ++ [row] }
    .ok (db2,
      { id := bookmark.id, userId := bookmark.userId,
        archived := bookmark.archived, favourited := bookmark.favourited,
        note := bookmark.note, createdAt := bookmark.createdAt,
        tags := [], content := .asset row.assetType row.assetId })
  | .unknown => .error badRequestErr

/-- The jobs `createBookmark` enqueues after its transaction commits
(part_000 lines 201-221): one crawl job for a link bookmark, one openai job
for a text or asset bookmark, and always one `search_indexing` job of kind
`index`. -/
def createBookmarkJobs (bm : ZBookmark) : List Job :=
  (match bm.content with
   | .link _ => [Job.crawl bm.id]
   | .text _ => [Job.openai bm.id]
   | .asset _ _ => [Job.openai bm.id]
   | .unknown => []) ++ [Job.searchIndexing bm.id .index]

/-- `createBookmark` (part_000 lines 122-223): run the insert transaction,
and only on commit enqueue the stage jobs. -/
def createBookmark (u : Nat) (input : NewBookmarkInput) (st : St) :
    St × Except TRPCError ZBookmark :=
  match runTransaction st.db (createBookmarkTx u input st.nextId st.now) with
  | (db2, .ok bm) =>
    ({ st with db := db2
               nextId := st.nextId + 1
               queue := st.queue ++ createBookmarkJobs bm }, .ok bm)
  | (db2, .error e) => ({ st with db := db2 }, .error e)

/-- The `ensureBookmarkOwnership` middleware (part_000 lines 38-68): look up
the target bookmark's owner, then check authentication, existence and
ownership — in that order. -/
def ensureBookmarkOwnership (db : Db) (user : Option Nat) (bookmarkId : Nat) :
    Except TRPCError Unit :=
  let bookmark := db.bookmarks.find? (fun b => b.id == bookmarkId)
  match user with
  | none => .error unauthorizedErr
  | some uid =>
    match bookmark with
    | none => .error notFoundErr
    | some b => if b.userId != uid then .error forbiddenErr else .ok ()

/-- Request body of `updateBookmark` (`zUpdateBookmarksRequestSchema`);
absent optional fields are left unchanged by the drizzle `set`. -/
structure UpdateBookmarkInput where
  bookmarkId : Nat
  archived : Option Bool
  favourited : Option Bool
  note : Option String
  deriving DecidableEq, Repr

/-- The drizzle `set({archived, favourited, note})` of `updateBookmark`:
fields passed as `undefined` are skipped. -/
def applyBookmarkUpdate (input : UpdateBookmarkInput) (b : BookmarkRow) :
    BookmarkRow :=
  { b with archived := input.archived.getD b.archived
           favourited := input.favourited.getD b.favourited
           note := match input.note with
                   | none => b.note
                   | some s => some s }

/-- `updateBookmark` (part_000 lines 225-255). -/
def updateBookmark (u : Nat) (input : UpdateBookmarkInput) (st : St) :
    St × Except TRPCError BookmarkRow :=
  match ensureBookmarkOwnership st.db (some u) input.bookmarkId with
  | .error e => (st, .error e)
  | .ok _ =>
    let hit := fun (b : BookmarkRow) => b.userId == u && b.id == input.bookmarkId
    let newRows :=
      st.db.bookmarks.map (fun b => if hit b then applyBookmarkUpdate input b else b)
    match newRows.filter hit with
    | [] => (st, .error notFoundErr)
    | r :: _ =>
      ({ st with db := { st.db with bookmarks := newRows }
                 queue := st.queue ++ [Job.searchIndexing input.bookmarkId .index] },
       .ok r)

/-- `updateBookmarkText` (part_000 lines 257-283). -/
def updateBookmarkText (u : Nat) (bookmarkId : Nat) (text : String) (st : St) :
    St × Except TRPCError Unit :=
  match ensureBookmarkOwnership st.db (some u) bookmarkId with
  | .error e => (st, .error e)
  | .ok _ =>
    let hit := fun (t : TextRow) => t.id == bookmarkId
    let newRows :=
      st.db.bookmarkTexts.map (fun t => if hit t then { t with text := some text } else t)
    match newRows.filter hit with
    | [] => (st, .error notFoundErr)
    | _ :: _ =>
      ({ st with db := { st.db with bookmarkTexts := newRows }
                 queue := st.queue ++ [Job.searchIndexing bookmarkId .index] },
       .ok ())

/-- `deleteBookmark` (part_000 lines 285-307): read the bookmark's asset row
first, run the delete statement, enqueue the `search_indexing` delete job,
and call `deleteAsset` only when the delete affected at least one row and
an asset row existed.  The removal of the dependent rows of a deleted
bookmark is modelled from the spec: the relational schema (not among the
sources) cascades a bookmark deletion to its content-variant rows and tag
attachments ("deleted by removing the row (cascading tag attachments)"). -/
def deleteBookmark (u : Nat) (bookmarkId : Nat) (st : St) :
    St × Except TRPCError Unit :=
  match ensureBookmarkOwnership st.db (some u) bookmarkId with
  | .error e => (st, .error e)
  | .ok _ =>
    let asset := st.db.bookmarkAssets.find? (fun a => a.id == bookmarkId)
    let changes :=
      st.db.bookmarks.countP (fun b => b.userId == u && b.id == bookmarkId)
    let db1 : Db :=
      { st.db with bookmarks :=
          st.db.bookmarks.filter (fun b => !(b.userId == u && b.id == bookmarkId)) }
    let db2 : Db :=
      if 0 < changes then
        { db1 with
            bookmarkLinks := db1.bookmarkLinks.filter (fun l => !(l.id == bookmarkId))
            bookmarkTexts := db1.bookmarkTexts.filter (fun t => !(t.id == bookmarkId))
            bookmarkAssets := db1.bookmarkAssets.filter (fun a => !(a.id == bookmarkId))
            tagsOnBookmarks :=
              db1.tagsOnBookmarks.filter (fun a => !(a.bookmarkId == bookmarkId))
            bookmarksInLists :=
              db1.bookmarksInLists.filter (fun a => !(a.bookmarkId == bookmarkId)) }
      else db1
    let released :=
      match asset with
      | some a => if 0 < changes then st.released ++ [(u, a.assetId)] else st.released
      | none => st.released
    ({ st with db := db2
               queue := st.queue ++ [Job.searchIndexing bookmarkId .delete]
               released := released },
     .ok ())

/-- `recrawlBookmark` (part_000 lines 308-315). -/
def recrawlBookmark (u : Nat) (bookmarkId : Nat) (st : St) :
    St × Except TRPCError Unit :=
  match ensureBookmarkOwnership st.db (some u) bookmarkId with
  | .error e => (st, .error e)
  | .ok _ => ({ st with queue := st.queue ++ [Job.crawl bookmarkId] }, .ok ())

/-- The shape returned by the relational `findFirst`/`findMany` with the
`tagsOnBookmarks`/`link`/`text`/`asset` relations loaded
(`BookmarkQueryReturnType`, part_000 lines 70-91). -/
structure BookmarkQueryReturnType where
  row : BookmarkRow
  tagsOnBookmarks : List (TagOnBookmarkRow × TagRow)
  link : Option LinkRow
  text : Option TextRow
  asset : Option AssetRow
  deriving DecidableEq, Repr

/-- `toZodSchema` (part_000 lines 93-119): pick the content variant by row
presence, in the order link, text, asset, falling back to `unknown`; a null
text column becomes the empty string. -/
def toZodSchema (b : BookmarkQueryReturnType) : ZBookmark :=
  let content : ZBookmarkContent :=
    match b.link with
    | some l => .link l
    | none =>
      match b.text with
      | some t => .text (t.text.getD (""))
      | none =>
        match b.asset with
        | some a => .asset a.assetType a.assetId
        | none => .unknown
  { id := b.row.id
    userId := b.row.userId
    archived := b.row.archived
    favourited := b.row.favourited
    note := b.row.note
    createdAt := b.row.createdAt
    tags := b.tagsOnBookmarks.map (fun p =>
      { id := p.2.id, name := p.2.name, userId := p.2.userId, attachedBy := p.1.attachedBy })
    content := content }

/-- Loading of the `with` relations for one bookmark row: its attachments
joined with their tag rows, and the three content-variant rows keyed by the
bookmark's id. -/
def queryBookmarkWith (db : Db) (b : BookmarkRow) : BookmarkQueryReturnType :=
  { row := b
    tagsOnBookmarks :=
      (db.tagsOnBookmarks.filter (fun a => a.bookmarkId == b.id)).filterMap
        (fun a => (db.bookmarkTags.find? (fun t => t.id == a.tagId)).map (fun t => (a, t)))
    link := db.bookmarkLinks.find? (fun l => l.id == b.id)
    text := db.bookmarkTexts.find? (fun t => t.id == b.id)
    asset := db.bookmarkAssets.find? (fun a => a.id == b.id) }

/-- `getBookmark` (part_000 lines 316-349). -/
def getBookmark (u : Nat) (bookmarkId : Nat) (st : St) :
    St × Except TRPCError ZBookmark :=
  match ensureBookmarkOwnership st.db (some u) bookmarkId with
  | .error e => (st, .error e)
  | .ok _ =>
    match st.db.bookmarks.find? (fun b => b.userId == u && b.id == bookmarkId) with
    | none => (st, .error notFoundErr)
    | some b => (st, .ok (toZodSchema (queryBookmarkWith st.db b)))

/-- One attach entry of `updateTags`: an optional known tag id plus the tag
name. -/
structure AttachTagInput where
  tagId : Option Nat
  tag : String
  deriving DecidableEq, Repr

/-- Request body of `updateTags`; detach entries carry only a tag id. -/
structure UpdateTagsInput where
  bookmarkId : Nat
  attach : List AttachTagInput
  detach : List Nat
  deriving DecidableEq, Repr

/-- Insert of one row into `bookmarkTags` under `onConflictDoNothing`: the
schema's unique constraint on `(userId, name)` (spec: "a tag name is unique
per owner") makes the insert a no-op when a row with the same owner and
name already exists.  The accumulator carries the fresh-id supply. -/
def insertTagIgnoringConflict (acc : Db × Nat) (entry : String × Nat) : Db × Nat :=
  if acc.1.bookmarkTags.any (fun t => t.userId == entry.2 && t.name == entry.1) then acc
  else
    ({ acc.1 with bookmarkTags :=
        acc.1.bookmarkTags ++ [{ id := acc.2, name := entry.1, userId := entry.2 }] },
     acc.2 + 1)

/-- Insert of one row into `tagsOnBookmarks` under `onConflictDoNothing`:
the table's primary key `(bookmarkId, tagId)` makes the insert a no-op when
that attachment already exists. -/
def insertAttachmentIgnoringConflict (db : Db) (row : TagOnBookmarkRow) : Db :=
  if db.tagsOnBookmarks.any
      (fun a => a.bookmarkId == row.bookmarkId && a.tagId == row.tagId) then db
  else { db with tagsOnBookmarks := db.tagsOnBookmarks ++ [row] }

/-- `updateTags` (part_000 lines 523-600): inside one transaction, first the
detaches, then creation of the not-yet-existing tag names, then resolution
of all attach names to tag ids, then attachment inserts with provenance
`human`; both inserts ignore conflicts.  The transaction body cannot throw
here, so no rollback case arises. -/
def updateTags (u : Nat) (input : UpdateTagsInput) (st : St) :
    St × Except TRPCError Unit :=
  match ensureBookmarkOwnership st.db (some u) input.bookmarkId with
  | .error e => (st, .error e)
  | .ok _ =>
    let detached := st.db.tagsOnBookmarks.filter
      (fun a => !(a.bookmarkId == input.bookmarkId && input.detach.contains a.tagId))
    let db1 : Db :=
      if 0 < input.detach.length then { st.db with tagsOnBookmarks := detached }
      else st.db
    if input.attach.length == 0 then
      ({ st with db := db1 }, .ok ())
    else
      let toBeCreatedTags :=
        (input.attach.filter (fun i => i.tagId.isNone)).map (fun i => (i.tag, u))
      let created :=
        if 0 < toBeCreatedTags.length then
          toBeCreatedTags.foldl insertTagIgnoringConflict (db1, st.nextId)
        else (db1, st.nextId)
      let allIds :=
        (created.1.bookmarkTags.filter
          (fun t => t.userId == u && (input.attach.map (fun a => a.tag)).contains t.name)).map
          (fun t => t.id)
      let db3 := allIds.foldl
        (fun db i => insertAttachmentIgnoringConflict db
          { tagId := i, bookmarkId := input.bookmarkId, attachedBy := .human, userId := u })
        created.1
      ({ st with db := db3, nextId := created.2 }, .ok ())

/-- Response shape of `getBookmarks` and `searchBookmarks`
(`zGetBookmarksResponseSchema`). -/
structure GetBookmarksResponse where
  bookmarks : List ZBookmark
  nextCursor : Option Nat
  deriving DecidableEq, Repr

/-- One filter clause of a search-engine query; the router only ever sends
the owner clause `userId = user.id` (part_000 line 366). -/
inductive SearchFilter where
  | userIdEq (userId : Nat)
  deriving DecidableEq, Repr

/-- The query `searchBookmarks` sends to the search engine (part_000 lines
365-370). -/
structure SearchQuery where
  text : String
  filter : List SearchFilter
  showRankingScore : Bool
  attributesToRetrieve : List String
  sort : List String
  deriving DecidableEq, Repr

/-- One hit of the engine's response; ranking scores are kept as naturals
(only their order matters to the router). -/
structure SearchHit where
  id : Nat
  rankingScore : Nat
  deriving DecidableEq, Repr

def searchQueryFor (u : Nat) (text : String) : SearchQuery :=
  { text := text
    filter := [SearchFilter.userIdEq u]
    showRankingScore := true
    attributesToRetrieve := ["id"]
    sort := ["createdAt:desc"] }

/-- The `idToRank` record built by the reduce over the hits (part_000 lines
375-378); a later hit with the same id overrides an earlier one. -/
def idToRank (hits : List SearchHit) (i : Nat) : Nat :=
  ((hits.reverse.find? (fun h => h.id == i)).map (fun h => h.rankingScore)).getD 0

/-- Descending sort by a natural-number key (used for `createdAt:desc` and
for the ranking-score sort), via insertion sort. -/
def sortByKeyDesc (key : α → Nat) (l : List α) : List α :=
  List.insertionSort (fun a b => key b ≤ key a) l

/-- `searchBookmarks` (part_000 lines 350-401): fail when no search client
is configured; otherwise query the engine with the owner filter, read the
hit ids back from the store filtered by the caller's user id, sort by
ranking score and convert.  The engine is a parameter, so the theorems
quantify over every possible engine response. -/
def searchBookmarks (u : Nat) (client : Option (SearchQuery → List SearchHit))
    (text : String) (db : Db) : Except TRPCError GetBookmarksResponse :=
  match client with
  | none => .error searchNotConfiguredErr
  | some engine =>
    let hits := engine (searchQueryFor u text)
    if hits.length == 0 then .ok { bookmarks := [], nextCursor := none }
    else
      let results := db.bookmarks.filter
        (fun b => b.userId == u && (hits.map (fun h => h.id)).contains b.id)
      let sorted := sortByKeyDesc (fun b => idToRank hits b.id) results
      .ok { bookmarks := sorted.map (fun b => toZodSchema (queryBookmarkWith db b))
            nextCursor := none }

/-- Page-size default of `getBookmarks`.  Modelled from the spec: the
constant is imported from `types/bookmarks`, which is not among the
sources; no claim depends on its value. -/
def DEFAULT_NUM_BOOKMARKS_PER_PAGE : Nat := 20

/-- Request body of `getBookmarks` (`zGetBookmarksRequestSchema`). -/
structure GetBookmarksInput where
  ids : Option (List Nat)
  archived : Option Bool
  favourited : Option Bool
  tagId : Option Nat
  listId : Option Nat
  cursor : Option Nat
  limit : Option Nat
  deriving DecidableEq, Repr

/-- The `where` clause of the `getBookmarks` subquery (part_000 lines
417-455): owner scope plus the optional archived/favourited/ids/tag/list
filters and the `createdAt <= cursor` bound. -/
def getBookmarksPred (u : Nat) (input : GetBookmarksInput) (db : Db)
    (b : BookmarkRow) : Bool :=
  b.userId == u &&
  (match input.archived with | none => true | some v => b.archived == v) &&
  (match input.favourited with | none => true | some v => b.favourited == v) &&
  (match input.ids with | none => true | some l => l.contains b.id) &&
  (match input.tagId with
   | none => true
   | some tid => db.tagsOnBookmarks.any (fun a => a.bookmarkId == b.id && a.tagId == tid)) &&
  (match input.listId with
   | none => true
   | some lid => db.bookmarksInLists.any (fun a => a.bookmarkId == b.id && a.listId == lid)) &&
  (match input.cursor with | none => true | some c => decide (b.createdAt ≤ c))

/-- The page size `getBookmarks` actually uses: `if (!input.limit)` replaces
the limit by the default both when it is absent and when it is `0` (zero is
falsy in JavaScript). -/
def effectiveLimit (input : GetBookmarksInput) : Nat :=
  match input.limit with
  | none => DEFAULT_NUM_BOOKMARKS_PER_PAGE
  | some l => if l == 0 then DEFAULT_NUM_BOOKMARKS_PER_PAGE else l

/-- `getBookmarks` (part_000 lines 402-521): fetch `limit + 1` matching rows
in descending `createdAt` order, convert them (the leftJoin plus the
id-keyed reduce aggregate each subquery row into one `ZBookmark`, embedded
here as the per-row conversion), and when more than `limit` rows arrived,
pop the extra row and expose its `createdAt` as `nextCursor`. -/
def getBookmarks (u : Nat) (input : GetBookmarksInput) (db : Db) :
    GetBookmarksResponse :=
  if input.ids == some [] then { bookmarks := [], nextCursor := none }
  else
    let limit := effectiveLimit input
    let sq := (sortByKeyDesc (fun b => b.createdAt)
        (db.bookmarks.filter (getBookmarksPred u input db))).take (limit + 1)
    let bookmarksArr := sq.map (fun b => toZodSchema (queryBookmarkWith db b))
    if limit < bookmarksArr.length then
      { bookmarks := bookmarksArr.dropLast
        nextCursor := bookmarksArr.getLast?.map (fun b => b.createdAt) }
    else { bookmarks := bookmarksArr, nextCursor := none }

/-- The tail of `getBookmarks`: page the `limit + 1` fetched rows, popping
the extra row into `nextCursor` (pure recombination helper used to state
the pagination facts). -/
def paginateRes (f : BookmarkRow → ZBookmark) (m : List BookmarkRow) (n : Nat) :
    GetBookmarksResponse :=
  if n < ((m.take (n+1)).map f).length then
    { bookmarks := ((m.take (n+1)).map f).dropLast
      nextCursor := ((m.take (n+1)).map f).getLast?.map (fun b => b.createdAt) }
  else { bookmarks := (m.take (n+1)).map f, nextCursor := none }

instance instDecidableEqExcept {ε α : Type} [DecidableEq ε] [DecidableEq α] :
    DecidableEq (Except ε α) := fun x y =>
  match x, y with
  | .ok a, .ok b =>
    if h : a = b then .isTrue (by rw [h])
    else .isFalse (fun hc => by cases hc; exact h rfl)
  | .error a, .error b =>
    if h : a = b then .isTrue (by rw [h])
    else .isFalse (fun hc => by cases hc; exact h rfl)
  | .ok _, .error _ => .isFalse (fun hc => by cases hc)
  | .error _, .ok _ => .isFalse (fun hc => by cases hc)

/-- Number of content-variant rows (link, text or asset) attached to a
bookmark id. -/
def variantRowCount (db : Db) (i : Nat) : Nat :=
  db.bookmarkLinks.countP (fun l => l.id == i) +
  db.bookmarkTexts.countP (fun t => t.id == i) +
  db.bookmarkAssets.countP (fun a => a.id == i)

/-- An empty store, for concrete instantiations. -/
def emptyDb : Db := ⟨[], [], [], [], [], [], []⟩

/-- A fresh state over the empty store. -/
def st0 : St := { db := emptyDb, queue := [], released := [], nextId := 50, now := 100 }

/-- A store with one bookmark of user 1, two tags of user 1 ("foo" and
"bar") and the tag "foo" attached to the bookmark by the AI. -/
def dbT : Db :=
  ⟨[⟨10, 1, false, false, none, 100⟩], [], [], [],
   [⟨20, "foo", 1⟩, ⟨21, "bar", 1⟩], [⟨20, 10, AttachedBy.ai, 1⟩], []⟩

/-- A state over `dbT`. -/
def stT : St := { db := dbT, queue := [], released := [], nextId := 60, now := 200 }

/-- A store with one asset bookmark of user 1 whose asset id is 77. -/
def dbA : Db :=
  ⟨[⟨10, 1, false, false, none, 100⟩], [], [],
   [⟨10, AssetType.image, 77, none, none, none⟩], [], [], []⟩

/-- A state over `dbA`. -/
def stA : St := { db := dbA, queue := [], released := [], nextId := 60, now := 200 }

/-- Recognizer for jobs on the `crawl` topic. -/
def Job.isCrawl : Job → Bool
  | .crawl _ => true
  | _ => false

/-- Recognizer for jobs on the `openai` topic. -/
def Job.isOpenai : Job → Bool
  | .openai _ => true
  | _ => false

/-- If a predicate counts exactly one element of a list and some member
satisfies it, the filter is exactly that singleton. -/
theorem filter_eq_singleton_of_countP_one {α : Type} {l : List α} {p : α → Bool}
    {t : α} (ht : t ∈ l) (hp : p t = true) (h1 : l.countP p = 1) :
    l.filter p = [t] := by
  have hlen : (l.filter p).length = 1 := by
    rw [← l.countP_eq_length_filter p] at *
    exact h1
  obtain ⟨x, hx⟩ := List.length_eq_one.mp hlen
  have htf : t ∈ l.filter p := List.mem_filter.mpr ⟨ht, hp⟩
  rw [hx] at htf ⊢
  cases List.mem_singleton.mp htf
  rfl

/-- The converted bookmark keeps the row's `createdAt`. -/
theorem toZod_createdAt (db : Db) (b : BookmarkRow) :
    (toZodSchema (queryBookmarkWith db b)).createdAt = b.createdAt := rfl

/-- The converted bookmark keeps the row's `userId`. -/
theorem toZod_userId (db : Db) (b : BookmarkRow) :
    (toZodSchema (queryBookmarkWith db b)).userId = b.userId := rfl

/-- The middleware rejects a missing bookmark with `NOT_FOUND`. -/
theorem ensureBookmarkOwnership_not_found {db : Db} {u bid : Nat}
    (h : db.bookmarks.find? (fun b => b.id == bid) = none) :
    ensureBookmarkOwnership db (some u) bid = Except.error notFoundErr := by
  simp [ensureBookmarkOwnership, h]

/-- The middleware rejects an owner mismatch with `FORBIDDEN`. -/
theorem ensureBookmarkOwnership_forbidden {db : Db} {u bid : Nat} {brow : BookmarkRow}
    (h : db.bookmarks.find? (fun b => b.id == bid) = some brow)
    (hne : brow.userId ≠ u) :
    ensureBookmarkOwnership db (some u) bid = Except.error forbiddenErr := by
  simp [ensureBookmarkOwnership, h, hne]

/-- The middleware passes for the owner of an existing bookmark. -/
theorem ensureBookmarkOwnership_ok {db : Db} {u bid : Nat} {brow : BookmarkRow}
    (h : db.bookmarks.find? (fun b => b.id == bid) = some brow)
    (he : brow.userId = u) :
    ensureBookmarkOwnership db (some u) bid = Except.ok () := by
  simp [ensureBookmarkOwnership, h, he]

/-- Folding the attachment inserts only ever adds rows with provenance
`human`: any row of the result is either an initial row or human-attached. -/
theorem mem_attach_foldl (u bid : Nat) (ids : List Nat) (db : Db)
    (x : TagOnBookmarkRow)
    (hx : x ∈ (ids.foldl (fun db i => insertAttachmentIgnoringConflict db
        ⟨i, bid, AttachedBy.human, u⟩) db).tagsOnBookmarks) :
    x ∈ db.tagsOnBookmarks ∨ x.attachedBy = AttachedBy.human := by
  induction ids generalizing db with
  | nil => exact Or.inl hx
  | cons i is ih =>
    rw [List.foldl_cons] at hx
    rcases ih _ hx with h | h
    · unfold insertAttachmentIgnoringConflict at h
      split at h
      · exact Or.inl h
      · rcases List.mem_append.mp h with h2 | h2
        · exact Or.inl h2
        · right
          cases List.mem_singleton.mp h2
          rfl
    · exact Or.inr h

/-- The tag-creation fold never touches the attachment table. -/
theorem insertTag_foldl_tagsOnBookmarks (entries : List (String × Nat))
    (acc : Db × Nat) :
    (entries.foldl insertTagIgnoringConflict acc).1.tagsOnBookmarks
      = acc.1.tagsOnBookmarks := by
  induction entries generalizing acc with
  | nil => rfl
  | cons e es ih =>
    rw [List.foldl_cons, ih]
    unfold insertTagIgnoringConflict
    split
    · rfl
    · rfl

/-- The tag-creation fold never touches the tag table's existing rows'
membership relevant here: a row of the result tag table is an initial row
or one of the inserted names. -/
theorem insertTag_foldl_bookmarkTags_superset (entries : List (String × Nat))
    (acc : Db × Nat) (t : TagRow) (ht : t ∈ acc.1.bookmarkTags) :
    t ∈ (entries.foldl insertTagIgnoringConflict acc).1.bookmarkTags := by
  induction entries generalizing acc with
  | nil => exact ht
  | cons e es ih =>
    rw [List.foldl_cons]
    apply ih
    unfold insertTagIgnoringConflict
    split
    · exact ht
    · exact List.mem_append.mpr (Or.inl ht)

/-- C1: the bookmark row and its single content-variant row are inserted in
one transaction: if the transaction body fails — any failing insert, and in
particular the unknown-type `BAD_REQUEST` rejection — the rollback keeps
the database unchanged, so no bookmark row persists, and nothing is
enqueued; on success the committed database is exactly the transaction's
output, and the crawl-or-openai plus search-indexing jobs are appended to
the queue strictly after that commit (the transaction body, of type
`Db → Except TRPCError (Db × ZBookmark)`, cannot touch the queue). -/
theorem createBookmark_atomic_enqueue_after_commit
    (u : Nat) (input : NewBookmarkInput) (st : St) :
    (∀ (α : Type) (body : Db → Except TRPCError (Db × α)) (e : TRPCError),
        (runTransaction st.db body).2 = Except.error e →
        (runTransaction st.db body).1 = st.db) ∧
    (∀ e, (createBookmark u input st).2 = Except.error e →
        (createBookmark u input st).1 = st) ∧
    (input = NewBookmarkInput.unknown →
        (createBookmark u input st).2 = Except.error badRequestErr) ∧
    (∀ bm, (createBookmark u input st).2 = Except.ok bm →
        (createBookmark u input st).1.db.bookmarks.countP (fun b => b.id == bm.id)
            = st.db.bookmarks.countP (fun b => b.id == bm.id) + 1 ∧
        variantRowCount (createBookmark u input st).1.db bm.id
            = variantRowCount st.db bm.id + 1 ∧
        (createBookmark u input st).1.db
            = (runTransaction st.db (createBookmarkTx u input st.nextId st.now)).1 ∧
        (createBookmark u input st).1.queue = st.queue ++ createBookmarkJobs bm) := by
  refine ⟨?_, ?_, ?_, ?_⟩
  · intro α body e h
    unfold runTransaction at h ⊢
    cases hb : body st.db with
    | ok p => rw [hb] at h; simp at h
    | error e2 => rfl
  · intro e h
    cases input <;>
      simp [createBookmark, runTransaction, createBookmarkTx] at h ⊢
  · intro hinput
    subst hinput
    rfl
  · intro bm h
    cases input with
    | link url =>
      simp only [createBookmark, runTransaction, createBookmarkTx] at h ⊢
      rw [Except.ok.injEq] at h
      subst h
      refine ⟨by simp [List.countP_append], ?_, by trivial, by trivial⟩
      simp [variantRowCount, List.countP_append]
      omega
    | text t =>
      simp only [createBookmark, runTransaction, createBookmarkTx] at h ⊢
      rw [Except.ok.injEq] at h
      subst h
      refine ⟨by simp [List.countP_append], ?_, by trivial, by trivial⟩
      simp [variantRowCount, List.countP_append]
      omega
    | asset ty aid =>
      simp only [createBookmark, runTransaction, createBookmarkTx] at h ⊢
      rw [Except.ok.injEq] at h
      subst h
      refine ⟨by simp [List.countP_append], ?_, by trivial, by trivial⟩
      simp [variantRowCount, List.countP_append]
      omega
    | unknown =>
      simp [createBookmark, runTransaction, createBookmarkTx] at h

/-- Witness for C1: the unknown-type call fails with `BAD_REQUEST` and the
state — database and queue — is exactly the initial one. -/
theorem createBookmark_atomic_enqueue_after_commit_witness :
    (createBookmark 1 NewBookmarkInput.unknown st0).2 = Except.error badRequestErr ∧
    (createBookmark 1 NewBookmarkInput.unknown st0).1 = st0 :=
  ⟨(createBookmark_atomic_enqueue_after_commit 1 NewBookmarkInput.unknown st0).2.2.1 rfl,
   (createBookmark_atomic_enqueue_after_commit 1 NewBookmarkInput.unknown st0).2.1
     badRequestErr
     ((createBookmark_atomic_enqueue_after_commit 1 NewBookmarkInput.unknown st0).2.2.1 rfl)⟩

/-- C2: a successful createBookmark enqueues, after its transaction, exactly
one crawl job (and no openai job) for a link bookmark, exactly one openai
job (and no crawl job) for a text or asset bookmark, and in every case
exactly one search-indexing job of kind `index` for the new bookmark's id;
a successful call never yields unknown content. -/
theorem createBookmark_stage_jobs (u : Nat) (input : NewBookmarkInput)
    (st st2 : St) (bm : ZBookmark)
    (h : createBookmark u input st = (st2, Except.ok bm)) :
    st2.queue = st.queue ++ createBookmarkJobs bm ∧
    (match bm.content with
     | ZBookmarkContent.link _ =>
        (createBookmarkJobs bm).countP (fun j => j == Job.crawl bm.id) = 1 ∧
        (createBookmarkJobs bm).countP Job.isCrawl = 1 ∧
        (createBookmarkJobs bm).countP Job.isOpenai = 0
     | ZBookmarkContent.text _ =>
        (createBookmarkJobs bm).countP (fun j => j == Job.openai bm.id) = 1 ∧
        (createBookmarkJobs bm).countP Job.isOpenai = 1 ∧
        (createBookmarkJobs bm).countP Job.isCrawl = 0
     | ZBookmarkContent.asset _ _ =>
        (createBookmarkJobs bm).countP (fun j => j == Job.openai bm.id) = 1 ∧
        (createBookmarkJobs bm).countP Job.isOpenai = 1 ∧
        (createBookmarkJobs bm).countP Job.isCrawl = 0
     | ZBookmarkContent.unknown => False) ∧
    (createBookmarkJobs bm).countP
        (fun j => j == Job.searchIndexing bm.id JobKind.index) = 1 := by
  cases input with
  | link url =>
    simp only [createBookmark, runTransaction, createBookmarkTx, Prod.mk.injEq] at h
    obtain ⟨hst2, hbm⟩ := h
    rw [Except.ok.injEq] at hbm
    subst hbm
    subst hst2
    refine ⟨rfl, ?_, ?_⟩ <;>
      simp [createBookmarkJobs, List.countP_cons, Job.isCrawl, Job.isOpenai]
  | text t =>
    simp only [createBookmark, runTransaction, createBookmarkTx, Prod.mk.injEq] at h
    obtain ⟨hst2, hbm⟩ := h
    rw [Except.ok.injEq] at hbm
    subst hbm
    subst hst2
    refine ⟨rfl, ?_, ?_⟩ <;>
      simp [createBookmarkJobs, List.countP_cons, Job.isCrawl, Job.isOpenai]
  | asset ty aid =>
    simp only [createBookmark, runTransaction, createBookmarkTx, Prod.mk.injEq] at h
    obtain ⟨hst2, hbm⟩ := h
    rw [Except.ok.injEq] at hbm
    subst hbm
    subst hst2
    refine ⟨rfl, ?_, ?_⟩ <;>
      simp [createBookmarkJobs, List.countP_cons, Job.isCrawl, Job.isOpenai]
  | unknown =>
    simp [createBookmark, runTransaction, createBookmarkTx] at h

/-- Witness for C2: a concrete text-bookmark creation enqueues one openai
job, no crawl job, and one index job. -/
theorem createBookmark_stage_jobs_witness :
    (((createBookmark 1 (NewBookmarkInput.text ("buy milk")) st0).1.queue =
        st0.queue ++ createBookmarkJobs ⟨50, 1, false, false, none, 100, [],
          ZBookmarkContent.text ("buy milk")⟩) ∧
      (createBookmarkJobs ⟨50, 1, false, false, none, 100, [],
          ZBookmarkContent.text ("buy milk")⟩).countP Job.isCrawl = 0) := by
  have h := createBookmark_stage_jobs 1 (NewBookmarkInput.text ("buy milk")) st0
    (createBookmark 1 (NewBookmarkInput.text ("buy milk")) st0).1
    ⟨50, 1, false, false, none, 100, [], ZBookmarkContent.text ("buy milk")⟩ rfl
  exact ⟨h.1, h.2.1.2.2⟩

/-- C3: every mutation targeting an existing bookmark (update, updateText,
delete, recrawl, getBookmark, updateTags) checks existence before
ownership: a missing bookmark id fails with `NOT_FOUND` whatever the
caller, an existing bookmark of another owner fails with `FORBIDDEN`, and
in both failure cases the state is returned unchanged. -/
theorem ownership_gate
    (st : St) (u bid : Nat) (upd : UpdateBookmarkInput) (txt : String)
    (tagsInput : UpdateTagsInput)
    (hupd : upd.bookmarkId = bid) (htags : tagsInput.bookmarkId = bid) :
    (st.db.bookmarks.find? (fun b => b.id == bid) = none →
       updateBookmark u upd st = (st, Except.error notFoundErr) ∧
       updateBookmarkText u bid txt st = (st, Except.error notFoundErr) ∧
       deleteBookmark u bid st = (st, Except.error notFoundErr) ∧
       recrawlBookmark u bid st = (st, Except.error notFoundErr) ∧
       getBookmark u bid st = (st, Except.error notFoundErr) ∧
       updateTags u tagsInput st = (st, Except.error notFoundErr)) ∧
    (∀ brow, st.db.bookmarks.find? (fun b => b.id == bid) = some brow →
       brow.userId ≠ u →
       updateBookmark u upd st = (st, Except.error forbiddenErr) ∧
       updateBookmarkText u bid txt st = (st, Except.error forbiddenErr) ∧
       deleteBookmark u bid st = (st, Except.error forbiddenErr) ∧
       recrawlBookmark u bid st = (st, Except.error forbiddenErr) ∧
       getBookmark u bid st = (st, Except.error forbiddenErr) ∧
       updateTags u tagsInput st = (st, Except.error forbiddenErr)) := by
  constructor
  · intro hnone
    have he := ensureBookmarkOwnership_not_found (u := u) hnone
    refine ⟨?_, ?_, ?_, ?_, ?_, ?_⟩ <;>
      simp [updateBookmark, updateBookmarkText, deleteBookmark, recrawlBookmark,
        getBookmark, updateTags, hupd, htags, he]
  · intro brow hsome hne
    have he := ensureBookmarkOwnership_forbidden hsome hne
    refine ⟨?_, ?_, ?_, ?_, ?_, ?_⟩ <;>
      simp [updateBookmark, updateBookmarkText, deleteBookmark, recrawlBookmark,
        getBookmark, updateTags, hupd, htags, he]

/-- Witness for C3: over `stT` (one bookmark id 10 owned by user 1),
deleting a missing id 99 fails `NOT_FOUND`, and user 2 deleting bookmark 10
fails `FORBIDDEN`, both leaving the state unchanged. -/
theorem ownership_gate_witness :
    deleteBookmark 1 99 stT = (stT, Except.error notFoundErr) ∧
    deleteBookmark 2 10 stT = (stT, Except.error forbiddenErr) :=
  ⟨((ownership_gate stT 1 99 ⟨99, none, none, none⟩ ("x") ⟨99, [], []⟩ rfl rfl).1
      (by decide)).2.2.1,
   ((ownership_gate stT 2 10 ⟨10, none, none, none⟩ ("x") ⟨10, [], []⟩ rfl rfl).2
      ⟨10, 1, false, false, none, 100⟩ (by decide) (by decide)).2.2.1⟩

/-- C4 counterexample: deleting a nonexistent bookmark id is not a no-op —
over the empty store the call fails with `NOT_FOUND` from the ownership
middleware. -/
theorem deleteBookmark_nonexistent_is_error :
    deleteBookmark 1 99 st0 = (st0, Except.error notFoundErr) := rfl

/-- C4 (amended): when the owner deletes an existing bookmark the call
succeeds; exactly one asset release, for the attached asset-content row's
asset id, is performed when such a row exists, and none otherwise; a
release can only happen when the delete statement affected at least one
row; and deleting a nonexistent bookmark id fails with `NOT_FOUND` (the
ownership middleware), leaving the state unchanged — it is not a silent
no-op. -/
theorem deleteBookmark_asset_release
    (st : St) (u bid : Nat) (brow : BookmarkRow)
    (hfind : st.db.bookmarks.find? (fun b => b.id == bid) = some brow)
    (howner : brow.userId = u) :
    (deleteBookmark u bid st).2 = Except.ok () ∧
    (match st.db.bookmarkAssets.find? (fun a => a.id == bid) with
     | some a =>
        (deleteBookmark u bid st).1.released = st.released ++ [(u, a.assetId)]
     | none => (deleteBookmark u bid st).1.released = st.released) ∧
    (∀ st3 : St, (deleteBookmark u bid st3).1.released ≠ st3.released →
       0 < st3.db.bookmarks.countP (fun b => b.userId == u && b.id == bid)) ∧
    (∀ st4 : St, st4.db.bookmarks.find? (fun b => b.id == bid) = none →
       deleteBookmark u bid st4 = (st4, Except.error notFoundErr)) := by
  have hmem := List.mem_of_find?_eq_some hfind
  have hid := List.find?_some hfind
  simp only [beq_iff_eq] at hid
  have hok := ensureBookmarkOwnership_ok hfind howner
  have hpos : 0 < st.db.bookmarks.countP (fun b => b.userId == u && b.id == bid) := by
    rw [List.countP_pos_iff]
    exact ⟨brow, hmem, by simp [howner, hid]⟩
  refine ⟨?_, ?_, ?_, ?_⟩
  · simp [deleteBookmark, hok]
  · cases hassets : st.db.bookmarkAssets.find? (fun a => a.id == bid) with
    | some a => simp [deleteBookmark, hok, hassets, hpos]
    | none => simp [deleteBookmark, hok, hassets]
  · intro st3 hrel
    by_contra hnp
    apply hrel
    cases he : ensureBookmarkOwnership st3.db (some u) bid with
    | error e => simp [deleteBookmark, he]
    | ok v =>
      cases ha : st3.db.bookmarkAssets.find? (fun a => a.id == bid) with
      | some a => simp [deleteBookmark, he, ha, hnp]
      | none => simp [deleteBookmark, he, ha]
  · intro st4 hnone
    have he := ensureBookmarkOwnership_not_found (u := u) hnone
    simp [deleteBookmark, he]

/-- Witness for the amended C4: user 1 deletes bookmark 10 of `stA`, which
carries an asset row with asset id 77: the call succeeds and exactly the
release `(1, 77)` is recorded. -/
theorem deleteBookmark_asset_release_witness :
    (deleteBookmark 1 10 stA).2 = Except.ok () ∧
    (deleteBookmark 1 10 stA).1.released = stA.released ++ [(1, 77)] := by
  have h := deleteBookmark_asset_release stA 1 10 ⟨10, 1, false, false, none, 100⟩
    (by decide) rfl
  exact ⟨h.1, h.2.1⟩

/-- C9: the conversion to the public schema is total over variant presence:
an existing link row wins, else a text row (null text becoming the empty
string), else an asset row, and with no variant row at all the conversion
still succeeds with content `unknown`. -/
theorem toZodSchema_variant_priority (b : BookmarkQueryReturnType) :
    (∀ l, b.link = some l → (toZodSchema b).content = ZBookmarkContent.link l) ∧
    (b.link = none → ∀ t, b.text = some t →
       (toZodSchema b).content = ZBookmarkContent.text (t.text.getD (""))) ∧
    (b.link = none → b.text = none → ∀ a, b.asset = some a →
       (toZodSchema b).content = ZBookmarkContent.asset a.assetType a.assetId) ∧
    (b.link = none → b.text = none → b.asset = none →
       (toZodSchema b).content = ZBookmarkContent.unknown) := by
  refine ⟨?_, ?_, ?_, ?_⟩
  · intro l hl
    simp [toZodSchema, hl]
  · intro hl t ht
    simp [toZodSchema, hl, ht]
  · intro hl ht a ha
    simp [toZodSchema, hl, ht, ha]
  · intro hl ht ha
    simp [toZodSchema, hl, ht, ha]

/-- Witness for C9 at concrete rows: the four variant cases, including a
null text column mapped to the empty string and the no-variant fallback. -/
theorem toZodSchema_variant_priority_witness :
    (toZodSchema ⟨⟨10, 1, false, false, none, 100⟩, [],
        some ⟨10, "u", none, none, none, none⟩, none, none⟩).content =
      ZBookmarkContent.link ⟨10, "u", none, none, none, none⟩ ∧
    (toZodSchema ⟨⟨10, 1, false, false, none, 100⟩, [], none,
        some ⟨10, none⟩, none⟩).content = ZBookmarkContent.text ("") ∧
    (toZodSchema ⟨⟨10, 1, false, false, none, 100⟩, [], none, none,
        some ⟨10, AssetType.pdf, 7, none, none, none⟩⟩).content =
      ZBookmarkContent.asset AssetType.pdf 7 ∧
    (toZodSchema ⟨⟨10, 1, false, false, none, 100⟩, [], none, none,
        none⟩).content = ZBookmarkContent.unknown := by
  refine ⟨?_, ?_, ?_, ?_⟩
  · exact (toZodSchema_variant_priority ⟨⟨10, 1, false, false, none, 100⟩, [],
      some ⟨10, "u", none, none, none, none⟩, none, none⟩).1
      ⟨10, "u", none, none, none, none⟩ rfl
  · exact (toZodSchema_variant_priority ⟨⟨10, 1, false, false, none, 100⟩, [],
      none, some ⟨10, none⟩, none⟩).2.1 rfl ⟨10, none⟩ rfl
  · exact (toZodSchema_variant_priority ⟨⟨10, 1, false, false, none, 100⟩, [],
      none, none, some ⟨10, AssetType.pdf, 7, none, none, none⟩⟩).2.2.1 rfl rfl
      ⟨10, AssetType.pdf, 7, none, none, none⟩ rfl
  · exact (toZodSchema_variant_priority ⟨⟨10, 1, false, false, none, 100⟩, [],
      none, none, none⟩).2.2.2 rfl rfl rfl

/-- C7: when no search client is configured, `searchBookmarks` fails with
the `INTERNAL_SERVER_ERROR` "not configured" signal; in particular it never
returns an empty bookmark list in that situation. -/
theorem searchBookmarks_unconfigured_fails (u : Nat) (text : String) (db : Db) :
    searchBookmarks u none text db = Except.error searchNotConfiguredErr := rfl

/-- C6: for every configured engine and every engine response, each
bookmark returned by `searchBookmarks` belongs to the calling user — the
query sent to the engine carries the explicit owner filter, and the
relational re-read of the hit ids is additionally filtered by the caller's
user id. -/
theorem searchBookmarks_owner_scoped
    (u : Nat) (engine : SearchQuery → List SearchHit) (text : String)
    (db : Db) (resp : GetBookmarksResponse) (bm : ZBookmark)
    (hok : searchBookmarks u (some engine) text db = Except.ok resp)
    (hmem : bm ∈ resp.bookmarks) :
    bm.userId = u ∧ (searchQueryFor u text).filter = [SearchFilter.userIdEq u] := by
  refine ⟨?_, rfl⟩
  simp only [searchBookmarks] at hok
  cases h0 : (engine (searchQueryFor u text)).length == 0 with
  | true =>
    rw [h0] at hok
    simp only [if_true] at hok
    rw [Except.ok.injEq] at hok
    subst hok
    simp at hmem
  | false =>
    rw [h0] at hok
    simp only [Bool.false_eq_true, if_false] at hok
    rw [Except.ok.injEq] at hok
    subst hok
    obtain ⟨brow, hbrow, hbm⟩ := List.mem_map.mp hmem
    subst hbm
    rw [toZod_userId]
    have hmem2 : brow ∈ db.bookmarks.filter
        (fun b => b.userId == u &&
          ((engine (searchQueryFor u text)).map (fun h => h.id)).contains b.id) := by
      simpa [sortByKeyDesc] using hbrow
    have hp := List.of_mem_filter hmem2
    simp only [Bool.and_eq_true, beq_iff_eq] at hp
    exact hp.1

/-- A db with two bookmarks of different owners, to instantiate C6. -/
def dbTwoUsers : Db :=
  ⟨[⟨10, 1, false, false, none, 100⟩, ⟨11, 2, false, false, none, 101⟩],
   [], [], [], [], [], []⟩

/-- A malicious or buggy engine that reports both bookmark ids as hits. -/
def engineAllHits : SearchQuery → List SearchHit := fun _ => [⟨10, 5⟩, ⟨11, 6⟩]

/-- Witness for C6: even when the engine reports another user's bookmark id,
every returned bookmark belongs to the caller. -/
theorem searchBookmarks_owner_scoped_witness :
    (toZodSchema (queryBookmarkWith dbTwoUsers ⟨10, 1, false, false, none, 100⟩)).userId
      = 1 :=
  (searchBookmarks_owner_scoped 1 engineAllHits ("q") dbTwoUsers
    ⟨[toZodSchema (queryBookmarkWith dbTwoUsers ⟨10, 1, false, false, none, 100⟩)], none⟩
    (toZodSchema (queryBookmarkWith dbTwoUsers ⟨10, 1, false, false, none, 100⟩))
    (by decide) (by decide)).1

/-- C5: attaching an already-attached tag name via `updateTags` is
idempotent: under the store invariants (unique tag name per owner, unique
attachment per bookmark-tag pair) the call succeeds and leaves exactly one
tag row for the owner and name, exactly one attachment row for the
bookmark and tag, and the attachment keeps the provenance of whichever
attachment happened first — in fact the whole state is unchanged. -/
theorem updateTags_attach_idempotent
    (st : St) (u bid : Nat) (n : String) (otid : Option Nat)
    (brow : BookmarkRow) (t : TagRow) (a0 : TagOnBookmarkRow)
    (hb : st.db.bookmarks.find? (fun b => b.id == bid) = some brow)
    (hbu : brow.userId = u)
    (ht : t ∈ st.db.bookmarkTags) (htu : t.userId = u) (htn : t.name = n)
    (htagcount : st.db.bookmarkTags.countP
        (fun x => x.userId == u && x.name == n) = 1)
    (ha : a0 ∈ st.db.tagsOnBookmarks) (ha1 : a0.bookmarkId = bid)
    (ha2 : a0.tagId = t.id)
    (hacount : st.db.tagsOnBookmarks.countP
        (fun x => x.bookmarkId == bid && x.tagId == t.id) = 1) :
    updateTags u ⟨bid, [⟨otid, n⟩], []⟩ st = (st, Except.ok ()) ∧
    (updateTags u ⟨bid, [⟨otid, n⟩], []⟩ st).1.db.bookmarkTags.countP
        (fun x => x.userId == u && x.name == n) = 1 ∧
    (updateTags u ⟨bid, [⟨otid, n⟩], []⟩ st).1.db.tagsOnBookmarks.countP
        (fun x => x.bookmarkId == bid && x.tagId == t.id) = 1 ∧
    (∀ x ∈ (updateTags u ⟨bid, [⟨otid, n⟩], []⟩ st).1.db.tagsOnBookmarks,
        x.bookmarkId = bid → x.tagId = t.id → x.attachedBy = a0.attachedBy) := by
  have hok := ensureBookmarkOwnership_ok hb hbu
  have hany_tag : st.db.bookmarkTags.any
      (fun x => x.userId == u && x.name == n) = true :=
    List.any_eq_true.mpr ⟨t, ht, by simp [htu, htn]⟩
  have hany_att : st.db.tagsOnBookmarks.any
      (fun x => x.bookmarkId == bid && x.tagId == t.id) = true :=
    List.any_eq_true.mpr ⟨a0, ha, by simp [ha1, ha2]⟩
  have hpt : (fun (x : TagRow) => x.userId == u && x.name == n) t = true := by
    simp [htu, htn]
  have hfilter2 : st.db.bookmarkTags.filter
      (fun x => x.userId == u && decide (x.name = n)) = [t] := by
    rw [List.filter_congr (fun x _ => ?_)]
    · exact filter_eq_singleton_of_countP_one ht hpt htagcount
    · by_cases hxe : x.name = n
      · simp [hxe]
      · simp [hxe]
  have hex : ∃ x ∈ st.db.tagsOnBookmarks, x.bookmarkId = bid ∧ x.tagId = t.id :=
    ⟨a0, ha, ha1, ha2⟩
  have hmain : updateTags u ⟨bid, [⟨otid, n⟩], []⟩ st = (st, Except.ok ()) := by
    cases otid with
    | none =>
      simp only [updateTags, hok]
      simp [insertTagIgnoringConflict, insertAttachmentIgnoringConflict,
        hany_tag, hany_att, hfilter2, hex]
    | some y =>
      simp only [updateTags, hok]
      simp [insertTagIgnoringConflict, insertAttachmentIgnoringConflict,
        hany_tag, hany_att, hfilter2, hex]
  refine ⟨hmain, ?_, ?_, ?_⟩
  · rw [hmain]
    exact htagcount
  · rw [hmain]
    exact hacount
  · rw [hmain]
    intro x hx hx1 hx2
    have hfa : st.db.tagsOnBookmarks.filter
        (fun y => y.bookmarkId == bid && y.tagId == t.id) = [a0] :=
      filter_eq_singleton_of_countP_one ha (by simp [ha1, ha2]) hacount
    have hxf : x ∈ st.db.tagsOnBookmarks.filter
        (fun y => y.bookmarkId == bid && y.tagId == t.id) :=
      List.mem_filter.mpr ⟨hx, by simp [hx1, hx2]⟩
    rw [hfa] at hxf
    cases List.mem_singleton.mp hxf
    rfl

/-- Witness for C5: re-attaching "foo" (already attached by the AI) over
`stT` succeeds, keeps one tag row and one attachment, and the provenance
stays `ai`. -/
theorem updateTags_attach_idempotent_witness :
    updateTags 1 ⟨10, [⟨none, "foo"⟩], []⟩ stT = (stT, Except.ok ()) ∧
    (updateTags 1 ⟨10, [⟨none, "foo"⟩], []⟩ stT).1.db.tagsOnBookmarks.countP
        (fun x => x.bookmarkId == 10 && x.tagId == 20) = 1 := by
  have h := updateTags_attach_idempotent stT 1 10 ("foo") none
    ⟨10, 1, false, false, none, 100⟩ ⟨20, "foo", 1⟩ ⟨20, 10, AttachedBy.ai, 1⟩
    (by decide) rfl (by decide) rfl rfl (by decide) (by decide) rfl rfl (by decide)
  exact ⟨h.1, h.2.2.1⟩

/-- The conditional tag-creation step leaves the attachment table as it
was. -/
theorem createdTags_tagsOnBookmarks (entries : List (String × Nat)) (db : Db)
    (nid : Nat) (c : Prop) [Decidable c] :
    (if c then entries.foldl insertTagIgnoringConflict (db, nid)
     else (db, nid)).1.tagsOnBookmarks = db.tagsOnBookmarks := by
  split
  · exact insertTag_foldl_tagsOnBookmarks entries (db, nid)
  · rfl

/-- C10 counterexample: a tag id listed in both detach and attach does NOT
necessarily end the call attached, because attaches are resolved by tag
name only.  Over `stT` (tag 20 "foo" attached by AI, tag 21 "bar"
unattached), the call with attach `{tagId := 20, tag := "bar"}` and detach
`[20]` succeeds and leaves tag 20 detached — only tag 21 is attached. -/
theorem updateTags_attach_by_id_not_reattached :
    (updateTags 1 ⟨10, [⟨some 20, "bar"⟩], [20]⟩ stT).2 = Except.ok () ∧
    (updateTags 1 ⟨10, [⟨some 20, "bar"⟩], [20]⟩ stT).1.db.tagsOnBookmarks =
      [⟨21, 10, AttachedBy.human, 1⟩] := by decide

/-- C10 (amended): detaches are applied before attaches within one
transaction, and attaches are resolved by tag name: a tag whose NAME is
listed in attach ends the call attached with provenance `human`, even when
its id is listed in detach (an attach entry that carries a tag id but a
different tag's name does not re-attach that id, as the counterexample
shows); and every attachment row created by any `updateTags` call has
provenance `attachedBy = human`. -/
theorem updateTags_detach_before_attach_by_name
    (st : St) (u bid : Nat) (n : String) (otid : Option Nat) (detach : List Nat)
    (brow : BookmarkRow) (t : TagRow)
    (hb : st.db.bookmarks.find? (fun b => b.id == bid) = some brow)
    (hbu : brow.userId = u)
    (ht : t ∈ st.db.bookmarkTags) (htu : t.userId = u) (htn : t.name = n)
    (htagcount : st.db.bookmarkTags.countP
        (fun x => x.userId == u && x.name == n) = 1)
    (hdet : t.id ∈ detach) :
    (updateTags u ⟨bid, [⟨otid, n⟩], detach⟩ st).2 = Except.ok () ∧
    (⟨t.id, bid, AttachedBy.human, u⟩ : TagOnBookmarkRow) ∈
      (updateTags u ⟨bid, [⟨otid, n⟩], detach⟩ st).1.db.tagsOnBookmarks ∧
    (∀ (inp : UpdateTagsInput) (st4 : St) (x : TagOnBookmarkRow),
        x ∈ (updateTags u inp st4).1.db.tagsOnBookmarks →
        x ∉ st4.db.tagsOnBookmarks → x.attachedBy = AttachedBy.human) := by
  have hok := ensureBookmarkOwnership_ok hb hbu
  have hany_tag : st.db.bookmarkTags.any
      (fun x => x.userId == u && x.name == n) = true :=
    List.any_eq_true.mpr ⟨t, ht, by simp [htu, htn]⟩
  have hpt : (fun (x : TagRow) => x.userId == u && x.name == n) t = true := by
    simp [htu, htn]
  have hfilter2 : st.db.bookmarkTags.filter
      (fun x => x.userId == u && decide (x.name = n)) = [t] := by
    rw [List.filter_congr (fun x _ => ?_)]
    · exact filter_eq_singleton_of_countP_one ht hpt htagcount
    · by_cases hxe : x.name = n
      · simp [hxe]
      · simp [hxe]
  have hdlen : 0 < detach.length := List.length_pos.mpr (List.ne_nil_of_mem hdet)
  have hnocon : ¬∃ x ∈ st.db.tagsOnBookmarks.filter
      (fun a => !(a.bookmarkId == bid) || !decide (a.tagId ∈ detach)),
      x.bookmarkId = bid ∧ x.tagId = t.id := by
    rintro ⟨x, hxmem, hx1, hx2⟩
    have hpred := List.of_mem_filter hxmem
    simp only [Bool.or_eq_true, Bool.not_eq_true', beq_eq_false_iff_ne,
      decide_eq_false_iff_not] at hpred
    rcases hpred with h | h
    · exact h hx1
    · rw [hx2] at h
      exact h hdet
  have hmain : (updateTags u ⟨bid, [⟨otid, n⟩], detach⟩ st).2 = Except.ok () ∧
      (updateTags u ⟨bid, [⟨otid, n⟩], detach⟩ st).1.db.tagsOnBookmarks =
        st.db.tagsOnBookmarks.filter
          (fun a => !(a.bookmarkId == bid && detach.contains a.tagId))
          ++ [⟨t.id, bid, AttachedBy.human, u⟩] := by
    cases otid with
    | none =>
      constructor
      · simp only [updateTags, hok]
        simp [insertTagIgnoringConflict, insertAttachmentIgnoringConflict,
          hany_tag, hfilter2, hdlen, hnocon]
      · simp only [updateTags, hok]
        simp [insertTagIgnoringConflict, insertAttachmentIgnoringConflict,
          hany_tag, hfilter2, hdlen]
        rw [if_neg hnocon]
    | some y =>
      constructor
      · simp only [updateTags, hok]
        simp [insertTagIgnoringConflict, insertAttachmentIgnoringConflict,
          hany_tag, hfilter2, hdlen, hnocon]
      · simp only [updateTags, hok]
        simp [insertTagIgnoringConflict, insertAttachmentIgnoringConflict,
          hany_tag, hfilter2, hdlen]
        rw [if_neg hnocon]
  refine ⟨hmain.1, ?_, ?_⟩
  · rw [hmain.2]
    exact List.mem_append.mpr (Or.inr (List.mem_singleton.mpr rfl))
  · intro inp st4 x hx hnx
    cases he : ensureBookmarkOwnership st4.db (some u) inp.bookmarkId with
    | error e =>
      simp only [updateTags, he] at hx
      exact absurd hx hnx
    | ok v =>
      simp only [updateTags, he] at hx
      split at hx
      · split at hx
        · exact absurd (List.mem_of_mem_filter hx) hnx
        · exact absurd hx hnx
      · rcases mem_attach_foldl u inp.bookmarkId _ _ x hx with h | h
        · rw [createdTags_tagsOnBookmarks] at h
          split at h
          · exact absurd (List.mem_of_mem_filter h) hnx
          · exact absurd h hnx
        · exact h

/-- Witness for the amended C10: over `stT`, attaching the name "foo"
(tag 20, currently attached by the AI) while detaching tag id 20 succeeds,
and tag 20 finishes attached with provenance human. -/
theorem updateTags_detach_before_attach_by_name_witness :
    (updateTags 1 ⟨10, [⟨none, "foo"⟩], [20]⟩ stT).2 = Except.ok () ∧
    (⟨20, 10, AttachedBy.human, 1⟩ : TagOnBookmarkRow) ∈
      (updateTags 1 ⟨10, [⟨none, "foo"⟩], [20]⟩ stT).1.db.tagsOnBookmarks := by
  have h := updateTags_detach_before_attach_by_name stT 1 10 ("foo") none [20]
    ⟨10, 1, false, false, none, 100⟩ ⟨20, "foo", 1⟩
    (by decide) rfl (by decide) rfl rfl (by decide) (by decide)
  exact ⟨h.1, h.2.1⟩

/-- The descending-by-key insertion sort is sorted. -/
theorem sorted_sortByKeyDesc {α : Type} (key : α → Nat) (l : List α) :
    List.Sorted (fun a b => key b ≤ key a) (sortByKeyDesc key l) := by
  haveI : IsTotal α (fun a b => key b ≤ key a) :=
    ⟨fun a b => Nat.le_total (key b) (key a)⟩
  haveI : IsTrans α (fun a b => key b ≤ key a) :=
    ⟨fun a b c h1 h2 => Nat.le_trans h2 h1⟩
  exact List.sorted_insertionSort _ l

/-- A row passing the `getBookmarks` filter respects the cursor bound. -/
theorem getBookmarksPred_cursor (u : Nat) (input : GetBookmarksInput) (db : Db)
    (b : BookmarkRow) (c : Nat)
    (hp : getBookmarksPred u input db b = true) (hc : input.cursor = some c) :
    b.createdAt ≤ c := by
  unfold getBookmarksPred at hp
  rw [hc] at hp
  simp only [Bool.and_eq_true, decide_eq_true_eq] at hp
  exact hp.2

/-- Paging facts about `paginateRes`: size bound, provenance of members,
sortedness preservation, and the two `nextCursor` cases. -/
theorem paginateRes_spec (f : BookmarkRow → ZBookmark)
    (hkey : ∀ b, (f b).createdAt = b.createdAt)
    (m : List BookmarkRow) (n : Nat) :
    (paginateRes f m n).bookmarks.length ≤ n ∧
    (∀ bm ∈ (paginateRes f m n).bookmarks, ∃ b ∈ m, bm = f b) ∧
    (List.Sorted (fun a b : BookmarkRow => b.createdAt ≤ a.createdAt) m →
      List.Sorted (fun a b : ZBookmark => b.createdAt ≤ a.createdAt)
        (paginateRes f m n).bookmarks) ∧
    (n < m.length →
      (paginateRes f m n).nextCursor = (m[n]?).map (fun b => b.createdAt)) ∧
    (m.length ≤ n → (paginateRes f m n).nextCursor = none) := by
  have hlen : ((m.take (n+1)).map f).length = min (n+1) m.length := by
    simp
  have hsortedArr : List.Sorted (fun a b : BookmarkRow => b.createdAt ≤ a.createdAt) m →
      List.Sorted (fun a b : ZBookmark => b.createdAt ≤ a.createdAt)
        ((m.take (n+1)).map f) := by
    intro hs
    rw [List.Sorted, List.pairwise_map]
    exact ((hs.sublist (List.take_sublist (n+1) m)).imp
      (fun h => by rw [hkey, hkey]; exact h))
  have hmemArr : ∀ bm ∈ (m.take (n+1)).map f, ∃ b ∈ m, bm = f b := by
    intro bm hbm
    obtain ⟨b, hb, rfl⟩ := List.mem_map.mp hbm
    exact ⟨b, (List.take_sublist (n+1) m).subset hb, rfl⟩
  unfold paginateRes
  by_cases hlt : n < ((m.take (n+1)).map f).length
  · rw [if_pos hlt]
    rw [hlen] at hlt
    have hm_lt : n < m.length := by omega
    have htake : m.take (n+1) = m.take n ++ [m[n]] := by
      rw [List.take_succ, List.getElem?_eq_getElem hm_lt]
      rfl
    refine ⟨?_, ?_, ?_, ?_, ?_⟩
    · simp only [List.length_dropLast, List.length_map, List.length_take]
      omega
    · intro bm hbm
      exact hmemArr bm ((List.dropLast_sublist _).subset hbm)
    · intro hs
      exact List.Pairwise.sublist (List.dropLast_sublist _) (hsortedArr hs)
    · intro _
      rw [htake, List.map_append, List.map_singleton, List.getLast?_concat]
      rw [List.getElem?_eq_getElem hm_lt]
      simp [hkey]
    · intro hle
      omega
  · rw [if_neg hlt]
    rw [hlen] at hlt
    refine ⟨?_, hmemArr, hsortedArr, ?_, fun _ => rfl⟩
    · rw [hlen]
      omega
    · intro hm_lt
      omega

/-- Outside the empty-ids early return, `getBookmarks` is exactly the
paging of the sorted, filtered rows with the effective limit. -/
theorem getBookmarks_eq_paginateRes (u : Nat) (input : GetBookmarksInput)
    (db : Db) (hids : ¬(input.ids = some [])) :
    getBookmarks u input db =
      paginateRes (fun b => toZodSchema (queryBookmarkWith db b))
        (sortByKeyDesc (fun b => b.createdAt)
          (db.bookmarks.filter (getBookmarksPred u input db)))
        (effectiveLimit input) := by
  simp only [getBookmarks, paginateRes]
  rw [if_neg (by simp only [beq_iff_eq]; exact hids)]

/-- C8 (amended): with n the effective page size — the given limit when set
and nonzero, `DEFAULT_NUM_BOOKMARKS_PER_PAGE` when unset or zero (zero is
falsy in `if (!input.limit)`) — `getBookmarks` returns at most n bookmarks
in descending `createdAt` order; when a cursor is supplied every returned
bookmark has `createdAt` at most the cursor; and `nextCursor` is the
`createdAt` of the first matching bookmark beyond the returned page when
more than n matching bookmarks exist, and null otherwise. -/
theorem getBookmarks_pagination (u : Nat) (input : GetBookmarksInput) (db : Db) :
    (getBookmarks u input db).bookmarks.length ≤ effectiveLimit input ∧
    List.Sorted (fun a b : ZBookmark => b.createdAt ≤ a.createdAt)
      (getBookmarks u input db).bookmarks ∧
    (∀ c, input.cursor = some c →
       ∀ bm ∈ (getBookmarks u input db).bookmarks, bm.createdAt ≤ c) ∧
    (effectiveLimit input <
        (sortByKeyDesc (fun b => b.createdAt)
          (db.bookmarks.filter (getBookmarksPred u input db))).length →
       (getBookmarks u input db).nextCursor =
         ((sortByKeyDesc (fun b => b.createdAt)
             (db.bookmarks.filter (getBookmarksPred u input db)))[effectiveLimit input]?).map
           (fun b => b.createdAt)) ∧
    ((sortByKeyDesc (fun b => b.createdAt)
        (db.bookmarks.filter (getBookmarksPred u input db))).length
          ≤ effectiveLimit input →
       (getBookmarks u input db).nextCursor = none) := by
  by_cases hids : input.ids = some []
  · have hfil : db.bookmarks.filter (getBookmarksPred u input db) = [] :=
      List.filter_eq_nil_iff.mpr (fun a _ => by simp [getBookmarksPred, hids])
    have hres : getBookmarks u input db = ⟨[], none⟩ := by
      simp [getBookmarks, hids]
    rw [hres, hfil]
    refine ⟨by simp, by simp, ?_, ?_, fun _ => rfl⟩
    · intro c hc bm hbm
      simp at hbm
    · intro hlt
      simp [sortByKeyDesc] at hlt
  · have heq := getBookmarks_eq_paginateRes u input db hids
    have hspec := paginateRes_spec (fun b => toZodSchema (queryBookmarkWith db b))
      (fun b => rfl)
      (sortByKeyDesc (fun b => b.createdAt)
        (db.bookmarks.filter (getBookmarksPred u input db)))
      (effectiveLimit input)
    rw [heq]
    refine ⟨hspec.1, hspec.2.2.1 (sorted_sortByKeyDesc _ _), ?_,
      hspec.2.2.2.1, hspec.2.2.2.2⟩
    intro c hc bm hbm
    obtain ⟨b, hbmem, rfl⟩ := hspec.2.1 bm hbm
    rw [toZod_createdAt]
    refine getBookmarksPred_cursor u input db b c ?_ hc
    rw [sortByKeyDesc] at hbmem
    exact List.of_mem_filter ((List.mem_insertionSort _).mp hbmem)

/-- C8 counterexample: a limit of 0 is falsy in JavaScript
(`if (!input.limit)`), so `getBookmarks` replaces it by the default page
size instead of honouring it — with one stored bookmark and `limit = 0`
the call returns 1 bookmark, not at most 0. -/
theorem getBookmarks_limit_zero_not_honoured :
    (getBookmarks 1 ⟨none, none, none, none, none, none, some 0⟩ dbT).bookmarks.length
      = 1 := by decide

/-- Witness for the amended C8 over `dbT` (one bookmark, createdAt 100):
with cursor 100 and limit 5, at most 5 bookmarks come back and
`nextCursor` is null since no further match exists. -/
theorem getBookmarks_pagination_witness :
    (getBookmarks 1 ⟨none, none, none, none, none, some 100, some 5⟩ dbT).bookmarks.length
      ≤ 5 ∧
    (getBookmarks 1 ⟨none, none, none, none, none, some 100, some 5⟩ dbT).nextCursor
      = none := by
  have h := getBookmarks_pagination 1 ⟨none, none, none, none, none, some 100, some 5⟩ dbT
  exact ⟨h.1, h.2.2.2.2 (by decide)⟩

end Hoarder












